import Mathlib

/-!
Verification of the DMARC report analyzer core (`src/analysis/analyzer.py`):
the statistics accumulator `_calculate_stats_for_reports`, the time-window
selector `analyze_reports` and the recommendation engine
`generate_policy_recommendations`, shallowly embedded in Lean.

Python `dict`s are embedded as insertion-ordered association lists,
`set`s as duplicate-free lists, `datetime` instants as integers (seconds),
`timedelta(days=d)` as `d * 86400`, Python `int` as `Int`, and Python float
rates as `ℚ`.  A Python function that can raise (`KeyError`) returns
`Option`.
-/

namespace DMARCer

/-! ### Association lists standing in for Python dicts (insertion-ordered) -/

/-- Lookup in an association list (first binding wins, like a dict with
unique keys). -/
def alistFind {α : Type} : List (String × α) → String → Option α
  | [], _ => none
  | (k', v) :: t, k => if k' = k then some v else alistFind t k

/-- `d[k] = v`: replace in place if present, else append at the end
(Python dicts keep insertion order). -/
def alistSet {α : Type} : List (String × α) → String → α → List (String × α)
  | [], k, v => [(k, v)]
  | (k', w) :: t, k, v => if k' = k then (k', v) :: t else (k', w) :: alistSet t k v

/-- `defaultdict` access-and-mutate: apply `f` to the existing value, or to
the default `d` (materializing the key at the end) when absent. -/
def alistUpdate {α : Type} : List (String × α) → String → α → (α → α) → List (String × α)
  | [], k, d, f => [(k, f d)]
  | (k', v) :: t, k, d, f =>
      if k' = k then (k', f v) :: t else (k', v) :: alistUpdate t k d f

/-- Read with default (what a `defaultdict` would answer, without
materializing). -/
def alistGet {α : Type} (l : List (String × α)) (k : String) (d : α) : α :=
  match alistFind l k with
  | some v => v
  | none => d

/-- Python `set.add` on a duplicate-free list. -/
def setAdd (l : List String) (x : String) : List String :=
  if x ∈ l then l else l ++ [x]

/-- `defaultdict(int)` counter bump: `d[k] += c`. -/
def bump (l : List (String × Int)) (k : String) (c : Int) : List (String × Int) :=
  alistUpdate l k 0 (· + c)

/-! ### Report model (`dmarc_parser.py` output shape) -/

/-- One `<record>` row of a report. -/
structure Record where
  source_ip : String
  count : Int
  header_from : String
  dkim_result : String
  spf_result : String
  disposition : String
  deriving Repr, DecidableEq

/-- `report['metadata']`; dates are instants in seconds, `none` when the
report carries no parseable date range. -/
structure Metadata where
  org_name : String
  begin_date_dt : Option Int
  end_date_dt : Option Int
  deriving Repr, DecidableEq

/-- `report['policy_published']`.  `pct` is already int-converted
(the source does `int(policy.get('pct', '100'))`); `subpolicy` is `none`
when the XML had no `<sp>` element and no parser default applied. -/
structure PolicyPublished where
  domain : String
  policy : String
  pct : Int
  subpolicy : Option String
  deriving Repr, DecidableEq

/-- One parsed DMARC report. -/
structure Report where
  metadata : Metadata
  policy_published : PolicyPublished
  records : List Record
  deriving Repr, DecidableEq

/-! ### Accumulator state (`stats` dict of `_calculate_stats_for_reports`) -/

/-- Per-domain counters (`stats['domain_stats'][domain]`). -/
structure DomainStats where
  count : Int
  dkim_pass : Int
  dkim_fail : Int
  spf_pass : Int
  spf_fail : Int
  fully_aligned : Int
  current_policy : String
  current_pct : Int
  current_sp : String
  sending_sources : List String
  policy_applied : List (String × Int)
  deriving Repr, DecidableEq

/-- The `defaultdict` factory value for `domain_stats`. -/
def defaultDomainStats : DomainStats :=
  { count := 0, dkim_pass := 0, dkim_fail := 0, spf_pass := 0, spf_fail := 0
    fully_aligned := 0, current_policy := "none", current_pct := 100
    current_sp := "none", sending_sources := [], policy_applied := [] }

/-- Per-source counters (`stats['ips'][source_ip]`). -/
structure IpStats where
  count : Int
  domains : List String
  dkim_pass : Int
  dkim_fail : Int
  spf_pass : Int
  spf_fail : Int
  fully_aligned : Int
  disposition : List (String × Int)
  deriving Repr, DecidableEq

/-- The `defaultdict` factory value for `ips`. -/
def defaultIpStats : IpStats :=
  { count := 0, domains := [], dkim_pass := 0, dkim_fail := 0
    spf_pass := 0, spf_fail := 0, fully_aligned := 0, disposition := [] }

/-- The whole `stats` accumulator. -/
structure Stats where
  total_messages : Int
  domains : List String
  domain_stats : List (String × DomainStats)
  reporting_orgs : List String
  ips : List (String × IpStats)
  dkim_overall_pass : Int
  dkim_overall_fail : Int
  spf_overall_pass : Int
  spf_overall_fail : Int
  disposition_overall : List (String × Int)
  failures_by_domain : List (String × Int)
  date_range_begin : Option Int
  date_range_end : Option Int
  deriving Repr, DecidableEq

/-- The freshly initialized `stats` dict. -/
def emptyStats : Stats :=
  { total_messages := 0, domains := [], domain_stats := [], reporting_orgs := []
    ips := [], dkim_overall_pass := 0, dkim_overall_fail := 0
    spf_overall_pass := 0, spf_overall_fail := 0, disposition_overall := []
    failures_by_domain := [], date_range_begin := none, date_range_end := none }

/-- Python `str.lower()`, embedded as a character-wise lowercase map (the
authentication results the analyzer compares are ASCII). -/
def strLower (s : String) : String :=
  { data := s.data.map Char.toLower }

/-- `result.lower() == 'pass'`. -/
def isPass (s : String) : Bool :=
  strLower s = "pass"

/-- The per-record body of the accumulator loop (analyzer.py lines 90-142),
with `domain` the report's `policy_published` domain. -/
def processRecord (domain : String) (st : Stats) (rec : Record) : Stats :=
  let c := rec.count
  let hf := rec.header_from
  let dkim := isPass rec.dkim_result
  let spf := isPass rec.spf_result
  { st with
    total_messages := st.total_messages + c
    domain_stats :=
      if hf = domain then
        alistUpdate st.domain_stats domain defaultDomainStats (fun ds =>
          { ds with
            count := ds.count + c
            sending_sources := setAdd ds.sending_sources rec.source_ip
            policy_applied := bump ds.policy_applied rec.disposition c
            dkim_pass := if dkim then ds.dkim_pass + c else ds.dkim_pass
            dkim_fail := if dkim then ds.dkim_fail else ds.dkim_fail + c
            spf_pass := if spf then ds.spf_pass + c else ds.spf_pass
            spf_fail := if spf then ds.spf_fail else ds.spf_fail + c
            fully_aligned :=
              if dkim || spf then ds.fully_aligned + c else ds.fully_aligned })
      else st.domain_stats
    ips :=
      alistUpdate st.ips rec.source_ip defaultIpStats (fun ip =>
        { ip with
          count := ip.count + c
          domains := setAdd ip.domains hf
          disposition := bump ip.disposition rec.disposition c
          dkim_pass := if dkim then ip.dkim_pass + c else ip.dkim_pass
          dkim_fail := if dkim then ip.dkim_fail else ip.dkim_fail + c
          spf_pass := if spf then ip.spf_pass + c else ip.spf_pass
          spf_fail := if spf then ip.spf_fail else ip.spf_fail + c
          fully_aligned :=
            if dkim || spf then ip.fully_aligned + c else ip.fully_aligned })
    dkim_overall_pass := if dkim then st.dkim_overall_pass + c else st.dkim_overall_pass
    dkim_overall_fail := if dkim then st.dkim_overall_fail else st.dkim_overall_fail + c
    spf_overall_pass := if spf then st.spf_overall_pass + c else st.spf_overall_pass
    spf_overall_fail := if spf then st.spf_overall_fail else st.spf_overall_fail + c
    disposition_overall := bump st.disposition_overall rec.disposition c
    failures_by_domain :=
      let f1 := if dkim then st.failures_by_domain else bump st.failures_by_domain hf c
      if spf then f1 else bump f1 hf c }

/-- The pre-record part of the per-report loop body (analyzer.py lines
65-88): date-range tracking, org/domain registration and the
last-write-wins policy overwrite.  `policy.get('subpolicy',
current_policy)` defaults a missing subpolicy to the policy just
written. -/
def reportHeader (st : Stats) (r : Report) : Stats :=
  let md := r.metadata
  let pol := r.policy_published
  { st with
    date_range_begin :=
      match md.begin_date_dt, st.date_range_begin with
      | some b, none => some b
      | some b, some cur => if b < cur then some b else some cur
      | none, cur => cur
    date_range_end :=
      match md.end_date_dt, st.date_range_end with
      | some e, none => some e
      | some e, some cur => if e > cur then some e else some cur
      | none, cur => cur
    reporting_orgs := setAdd st.reporting_orgs md.org_name
    domains := setAdd st.domains pol.domain
    domain_stats :=
      alistUpdate st.domain_stats pol.domain defaultDomainStats (fun ds =>
        { ds with
          current_policy := pol.policy
          current_pct := pol.pct
          current_sp := pol.subpolicy.getD pol.policy }) }

/-- The per-report body of the accumulator loop (analyzer.py lines
61-142): the header updates, then the record loop. -/
def processReport (st : Stats) (r : Report) : Stats :=
  r.records.foldl (processRecord r.policy_published.domain) (reportHeader st r)

/-- `_calculate_stats_for_reports`: fold every report into a fresh
accumulator (the early `return` on an empty list coincides with the empty
fold; the `if not report: continue` guard has no counterpart because the
embedding types every list element as a real report). -/
def _calculate_stats_for_reports (l : List Report) : Stats :=
  l.foldl processReport emptyStats

/-! ### Time-window selector (`analyze_reports`) -/

/-- `helpers.TIME_PERIODS` dict; the value `some none` is the `None` stored
under `'all'`, an absent key answers `none` (a `KeyError` on subscript). -/
def TIME_PERIODS (k : String) : Option (Option Int) :=
  if k = "30" then some (some 30)
  else if k = "90" then some (some 90)
  else if k = "180" then some (some 180)
  else if k = "360" then some (some 360)
  else if k = "all" then some none
  else none

/-- `timedelta(days=d)` in seconds. -/
def timedeltaDays (d : Int) : Int :=
  d * 86400

/-- One entry of `stats_bundle['periods']`; `days` is `none` both for the
stored `None` under `'all'` and for the key the empty-input branch never
writes (the source only ever reads it with `.get('days')`). -/
structure PeriodData where
  stats : Stats
  is_meaningful : Bool
  days : Option Int
  deriving Repr, DecidableEq

/-- The whole `stats_bundle`; `default_period` is `none` both for a stored
`None` and for the key the empty-input branch never writes (the source only
ever reads it with `.get('default_period', ...)`, and a stored `None` and a
missing key lead to the same downstream behavior). -/
structure StatsBundle where
  periods : List (String × PeriodData)
  default_period : Option String
  deriving Repr, DecidableEq

/-- One step of the `max_end_date` scan (analyzer.py lines 174-178). -/
def maxStep (acc : Option Int) (r : Report) : Option Int :=
  match r.metadata.end_date_dt with
  | some e =>
      match acc with
      | none => some e
      | some m => if e > m then some e else some m
  | none => acc

/-- The `max_end_date` scan of analyzer.py lines 173-178. -/
def maxEndDate (l : List Report) : Option Int :=
  l.foldl maxStep none

/-- The window filter of analyzer.py lines 204-207: keep a report iff it
has an end date and that date is `>= period_start`. -/
def windowFilter (period_start : Int) (l : List Report) : List Report :=
  l.filter (fun r =>
    match r.metadata.end_date_dt with
    | some e => decide (period_start ≤ e)
    | none => false)

/-- The `periods` entry computed for one requested key in the non-empty
branch (analyzer.py lines 187-218); `none` is the `KeyError` from
`TIME_PERIODS[period_key]`. -/
def periodEntryFor (l : List Report) (max_end : Int) (pk : String) : Option PeriodData :=
  match TIME_PERIODS pk with
  | none => none
  | some daysOpt =>
      if pk = "all" then
        let st := _calculate_stats_for_reports l
        some { stats := st, is_meaningful := st.total_messages > 0, days := none }
      else
        match daysOpt with
        | none => none
        | some days =>
            let filtered := windowFilter (max_end - timedeltaDays days) l
            let st := _calculate_stats_for_reports filtered
            some { stats := st
                   is_meaningful := !filtered.isEmpty && st.total_messages > 0
                   days := some days }

/-- One step of the `periods`-building loop: fail on the first
`KeyError`. -/
def periodStep (ent : String → Option PeriodData)
    (acc : Option (List (String × PeriodData))) (pk : String) :
    Option (List (String × PeriodData)) :=
  match acc, ent pk with
  | some ps, some pd => some (alistSet ps pk pd)
  | _, _ => none

/-- Fold the requested keys into the `periods` dict. -/
def buildPeriods (ent : String → Option PeriodData) (tps : List String) :
    Option (List (String × PeriodData)) :=
  tps.foldl (periodStep ent) (some [])

/-- Python `int(x)` on a decimal numeral, embedded as a digit fold (the
source only applies it to keys already validated against `TIME_PERIODS`,
all of which are decimal numerals). -/
def decimalValue (s : String) : Int :=
  s.data.foldl (fun a c => a * 10 + ((c.toNat : Int) - 48)) 0

/-- The sort key of analyzer.py line 229: `9999 if x == 'all' else int(x)`. -/
def periodSortKey (s : String) : Int :=
  if s = "all" then 9999 else decimalValue s

/-- Stable insertion into a list sorted by `periodSortKey`. -/
def insortPeriod (x : String) : List String → List String
  | [] => [x]
  | y :: ys =>
      if periodSortKey x ≤ periodSortKey y then x :: y :: ys
      else y :: insortPeriod x ys

/-- `sorted(keys, key=...)`: stable ascending sort by `periodSortKey`. -/
def sortPeriodKeys (l : List String) : List String :=
  l.foldr insortPeriod []

/-- `k in periods and periods[k]['is_meaningful']`. -/
def meaningfulAt (ps : List (String × PeriodData)) (k : String) : Bool :=
  match alistFind ps k with
  | some pd => pd.is_meaningful
  | none => false

/-- Default-period selection (analyzer.py lines 220-236): prefer a
meaningful `"30"`, else the first meaningful key of the sorted key list,
else `"all"` when present, else `None`. -/
def defaultPeriodOf (ps : List (String × PeriodData)) : Option String :=
  if meaningfulAt ps "30" then some "30"
  else
    match (sortPeriodKeys (ps.map Prod.fst)).find? (fun k => meaningfulAt ps k) with
    | some k => some k
    | none => if (alistFind ps "all").isSome then some "all" else none

/-- The empty-input branch (analyzer.py lines 161-170): one empty,
non-meaningful entry per requested key and an early return that never
assigns a default period. -/
def emptyBundle (tps : List String) : StatsBundle :=
  { periods :=
      tps.foldl
        (fun acc p =>
          alistSet acc p
            { stats := _calculate_stats_for_reports []
              is_meaningful := false, days := none })
        []
    default_period := none }

/-- `analyze_reports`.  `now` stands for `datetime.now()`, the anchor
fallback when no report carries an end date; the Python
`time_periods=None` default (`['30', 'all']`) is the caller's business.
Answers `none` when a requested key raises `KeyError` in
`TIME_PERIODS[period_key]`. -/
def analyze_reports (l : List Report) (tps : List String) (now : Int) :
    Option StatsBundle :=
  match l with
  | [] => some (emptyBundle tps)
  | _ =>
      let max_end := (maxEndDate l).getD now
      match buildPeriods (periodEntryFor l max_end) tps with
      | none => none
      | some ps => some { periods := ps, default_period := defaultPeriodOf ps }

/-! ### Recommendation engine (`generate_policy_recommendations`) -/

/-- `domain_stats['dkim_pass'] / domain_stats['count'] if ... else 0`
(analyzer.py line 283), idealized over `ℚ`. -/
def dkimRate (ds : DomainStats) : ℚ :=
  if ds.count > 0 then (ds.dkim_pass : ℚ) / (ds.count : ℚ) else 0

/-- SPF pass rate (analyzer.py line 284). -/
def spfRate (ds : DomainStats) : ℚ :=
  if ds.count > 0 then (ds.spf_pass : ℚ) / (ds.count : ℚ) else 0

/-- Alignment rate (analyzer.py line 285). -/
def alignmentRate (ds : DomainStats) : ℚ :=
  if ds.count > 0 then (ds.fully_aligned : ℚ) / (ds.count : ℚ) else 0

/-- Stand-in rendering for the f-string field `{rate:.1%}`; the claims
below depend only on the surrounding line structure, never on the digits
rendered here. -/
def fmtRate (q : ℚ) : String :=
  toString (q * 100) ++ "%"

/-- Stand-in rendering for `datetime.strftime('%Y-%m-%d')`; again only the
line structure matters to the claims. -/
def fmtDate (t : Int) : String :=
  toString t

/-- The `'stats'` value of one recommendation entry: the raw `DomainStats`
dict for a zero-count domain (analyzer.py line 278), or the snapshot dict
of lines 361-371 otherwise. -/
inductive RecStats where
  | raw (ds : DomainStats)
  | snapshot (messages : Int) (dkim_rate spf_rate alignment_rate : ℚ)
      (current_policy : String) (current_pct : Int) (current_sp : String)
      (num_sources : Int) (policy_results : List (String × Int))
  deriving Repr, DecidableEq

/-- Whether a `'stats'` value has the snapshot shape. -/
def RecStats.isSnapshot : RecStats → Bool
  | .raw _ => false
  | .snapshot _ _ _ _ _ _ _ _ _ => true

/-- One entry of the list returned by `generate_policy_recommendations`. -/
structure DomainRec where
  domain : String
  recommendations : List String
  stats : RecStats
  deriving Repr, DecidableEq

/-- The literal warning of analyzer.py line 340. -/
def legitLossWarn : String :=
  "MONITOR: Watch for legitimate email loss with current strict policy."

/-- Policy-progression lines (analyzer.py lines 305-340). -/
def policyLines (alignment_rate : ℚ) (current_policy : String) (current_pct : Int) :
    List String :=
  if current_policy = "none" then
    if alignment_rate ≥ 0.95 then
      ["POLICY UPGRADE: Consider moving to 'p=quarantine' with pct=5 as alignment rate is excellent ("
        ++ (fmtRate alignment_rate ++ ")." )]
    else if alignment_rate ≥ 0.85 then
      ["MONITOR: Continue with 'p=none' but work toward 'p=quarantine' as alignment rate is good ("
        ++ (fmtRate alignment_rate ++ ")." )]
    else
      ["CAUTION: Maintain 'p=none' while improving alignment rate (currently "
         ++ (fmtRate alignment_rate ++ ")." ),
       "IMPROVEMENT NEEDED: Address authentication issues before considering enforcement policies."]
  else if current_policy = "quarantine" then
    if alignment_rate ≥ 0.98 then
      if current_pct < 100 then
        ["PERCENTAGE INCREASE: Increase pct value from "
          ++ (toString current_pct ++ ("% to "
          ++ (toString (min (current_pct + 25) 100) ++ "% as alignment is excellent.")))]
      else
        ["POLICY UPGRADE: Consider moving to 'p=reject' with pct=5 as alignment rate is excellent ("
          ++ (fmtRate alignment_rate ++ ")." )]
    else if alignment_rate ≥ 0.9 then
      if current_pct < 100 then
        ["PERCENTAGE INCREASE: Consider increasing pct value from "
          ++ (toString current_pct ++ ("% to "
          ++ (toString (min (current_pct + 10) 100) ++ "%.")))]
      else
        ["MAINTAIN: Keep 'p=quarantine' at 100% while monitoring for any issues."]
    else
      (if current_pct > 25 then
        ["CAUTION: Consider decreasing pct value to reduce potential legitimate email loss."]
       else [])
      ++ ["IMPROVEMENT NEEDED: Work on authentication issues before increasing enforcement."]
  else if current_policy = "reject" then
    if current_pct < 100 then
      if alignment_rate ≥ 0.98 then
        ["PERCENTAGE INCREASE: Consider increasing pct value from "
          ++ (toString current_pct ++ ("% to "
          ++ (toString (min (current_pct + 20) 100) ++ "%.")))]
      else if alignment_rate ≥ 0.95 then
        ["PERCENTAGE INCREASE: Consider a modest increase from "
          ++ (toString current_pct ++ ("% to "
          ++ (toString (min (current_pct + 10) 100) ++ "%.")))]
      else
        ["CAUTION: Maintain current pct=" ++ (toString current_pct
          ++ ("% until alignment improves (" ++ (fmtRate alignment_rate ++ ").")))]
    else
      ["OPTIMAL: DMARC policy is at maximum enforcement (p=reject, pct=100)."]
      ++ (if alignment_rate < 0.98 then [legitLossWarn] else [])
  else []

/-- Authentication-quality and subdomain-policy lines (analyzer.py lines
343-352). -/
def authLines (dkim_rate spf_rate : ℚ) (current_sp current_policy : String) :
    List String :=
  (if dkim_rate < 0.9 then
    ["DKIM ISSUE: Improve DKIM signing (currently " ++ (fmtRate dkim_rate ++ " pass rate).")]
    ++ (if dkim_rate < 0.7 then
        ["CRITICAL: DKIM failures are significant and require immediate attention."]
       else [])
   else [])
  ++ (if spf_rate < 0.9 then
      ["SPF ISSUE: Improve SPF alignment (currently " ++ (fmtRate spf_rate ++ " pass rate).")]
      ++ (if spf_rate < 0.7 then
          ["CRITICAL: SPF failures are significant and require immediate attention."]
         else [])
     else [])
  ++ (if current_sp ≠ "reject" ∧ current_policy ≠ "none" then
      ["SUBDOMAIN POLICY: Consider setting 'sp=reject' to protect against subdomain spoofing."]
     else [])

/-- Source-diversity line (analyzer.py lines 354-356). -/
def diversityLines (num_sources : Int) (current_policy : String) (current_pct : Int) :
    List String :=
  if num_sources > 10 ∧ current_policy ≠ "none" ∧ current_pct > 50 then
    ["DIVERSITY WARNING: You have " ++ (toString num_sources
      ++ " sending sources, which increases risk during policy enforcement.")]
  else []

/-- The period description of analyzer.py lines 291-301 (count > 0 branch);
Python `if days:` is false for both `None` and `0`, and a `datetime` is
always truthy, so the date-range text needs both endpoints present. -/
def periodDescMain (days : Option Int) (dr_begin dr_end : Option Int) : String :=
  match days with
  | some d =>
      if d ≠ 0 then "the last " ++ (toString d ++ " days")
      else
        match dr_begin, dr_end with
        | some b, some e =>
            "all available data (" ++ (fmtDate b ++ (" to " ++ (fmtDate e ++ ")")))
        | _, _ => "all available data"
  | none =>
      match dr_begin, dr_end with
      | some b, some e =>
          "all available data (" ++ (fmtDate b ++ (" to " ++ (fmtDate e ++ ")")))
      | _, _ => "all available data"

/-- The loop body of analyzer.py lines 268-372 for one `(domain,
domain_stats)` item of the chosen period. -/
def recForDomain (days : Option Int) (dr_begin dr_end : Option Int)
    (domain : String) (ds : DomainStats) : DomainRec :=
  if ds.count = 0 then
    let period_desc :=
      match days with
      | some d => if d ≠ 0 then "the last " ++ (toString d ++ " days")
                  else "the entire analyzed period"
      | none => "the entire analyzed period"
    { domain := domain
      recommendations :=
        ["No data available for direct messages from " ++ (domain
          ++ (" in " ++ (period_desc ++ ".")))]
      stats := RecStats.raw ds }
  else
    let dkim_rate := dkimRate ds
    let spf_rate := spfRate ds
    let alignment_rate := alignmentRate ds
    let num_sources : Int := ds.sending_sources.length
    { domain := domain
      recommendations :=
        ["INFO: Recommendations based on "
          ++ (periodDescMain days dr_begin dr_end ++ ".")]
        ++ policyLines alignment_rate ds.current_policy ds.current_pct
        ++ authLines dkim_rate spf_rate ds.current_sp ds.current_policy
        ++ diversityLines num_sources ds.current_policy ds.current_pct
      stats :=
        RecStats.snapshot ds.count (dkim_rate * 100) (spf_rate * 100)
          (alignment_rate * 100) ds.current_policy ds.current_pct
          ds.current_sp num_sources ds.policy_applied }

/-- Period-key resolution of analyzer.py lines 253-259: a `None` argument
takes the bundle's default (where a stored `None` and a missing
`default_period` key both end at `"all"`, exactly as in the source), and a
key absent from `periods` falls back to `"all"`. -/
def resolvePeriodKey (b : StatsBundle) (pk : Option String) : String :=
  match (match pk with | some k => some k | none => b.default_period) with
  | some k => if (alistFind b.periods k).isSome then k else "all"
  | none => "all"

/-- `generate_policy_recommendations`; `none` is the `KeyError` of
`stats_bundle['periods'][period_key]` when even the `"all"` fallback is
absent. -/
def generate_policy_recommendations (b : StatsBundle) (pk : Option String) :
    Option (List DomainRec) :=
  match alistFind b.periods (resolvePeriodKey b pk) with
  | none => none
  | some pdata =>
      some (pdata.stats.domain_stats.map (fun p =>
        recForDomain pdata.days pdata.stats.date_range_begin
          pdata.stats.date_range_end p.1 p.2))

/-! ### Association-list lemmas -/

theorem alistGet_cons_ne {α : Type} (k₀ : String) (w : α) (t : List (String × α))
    (k : String) (d : α) (h : ¬ k₀ = k) :
    alistGet ((k₀, w) :: t) k d = alistGet t k d := by
  simp [alistGet, alistFind, h]

theorem alistGet_cons_self {α : Type} (k : String) (w : α) (t : List (String × α))
    (d : α) :
    alistGet ((k, w) :: t) k d = w := by
  simp [alistGet, alistFind]

theorem alistFind_set {α : Type} (l : List (String × α)) (k : String) (v : α)
    (k' : String) :
    alistFind (alistSet l k v) k' = if k = k' then some v else alistFind l k' := by
  induction l with
  | nil =>
      by_cases h : k = k' <;> simp [alistSet, alistFind, h]
  | cons hd t ih =>
      obtain ⟨k₀, w⟩ := hd
      by_cases h0 : k₀ = k
      · subst h0
        by_cases h : k₀ = k' <;> simp [alistSet, alistFind, h]
      · have hks : ¬ k = k₀ := fun hh => h0 hh.symm
        by_cases h : k₀ = k'
        · subst h
          simp [alistSet, alistFind, h0, hks]
        · simp [alistSet, alistFind, h0, h, ih]

theorem alistFind_update {α : Type} (l : List (String × α)) (k : String) (d : α)
    (f : α → α) (k' : String) :
    alistFind (alistUpdate l k d f) k' =
      if k = k' then some (f (alistGet l k d)) else alistFind l k' := by
  induction l with
  | nil =>
      by_cases h : k = k' <;> simp [alistUpdate, alistFind, alistGet, h]
  | cons hd t ih =>
      obtain ⟨k₀, w⟩ := hd
      by_cases h0 : k₀ = k
      · subst h0
        by_cases h : k₀ = k' <;>
          simp [alistUpdate, alistFind, alistGet_cons_self, h]
      · have hks : ¬ k = k₀ := fun hh => h0 hh.symm
        by_cases h : k₀ = k'
        · subst h
          simp [alistUpdate, alistFind, alistGet_cons_ne _ _ _ _ _ h0, h0, hks]
        · simp [alistUpdate, alistFind, alistGet_cons_ne _ _ _ _ _ h0, h0, h, ih]

theorem alistGet_bump (l : List (String × Int)) (k : String) (c : Int)
    (k' : String) :
    alistGet (bump l k c) k' 0 = alistGet l k' 0 + (if k = k' then c else 0) := by
  by_cases h : k = k' <;>
    simp only [bump, alistGet, alistFind_update, h, if_pos, if_neg,
      reduceIte] <;>
    simp [alistGet]

/-! ### C3: failure counting by claimed domain -/

/-- Number of failing checks of a record: DKIM and SPF each count one when
the result is not `pass` case-insensitively. -/
def failCount (rec : Record) : Int :=
  (if isPass rec.dkim_result then 0 else 1) + (if isPass rec.spf_result then 0 else 1)

/-- The total failure contribution of a record list to claimed domain `d`. -/
def failContribs (d : String) (rs : List Record) : Int :=
  ((rs.filter (fun rec => decide (rec.header_from = d))).map
    (fun rec => rec.count * failCount rec)).sum

theorem fbd_processRecord (dom : String) (st : Stats) (rec : Record) (d : String) :
    alistGet (processRecord dom st rec).failures_by_domain d 0 =
      alistGet st.failures_by_domain d 0 +
        (if rec.header_from = d then rec.count * failCount rec else 0) := by
  cases hdk : isPass rec.dkim_result <;> cases hsp : isPass rec.spf_result <;>
    by_cases h : rec.header_from = d <;>
      simp [processRecord, failCount, hdk, hsp, h, alistGet_bump] <;> ring

theorem fbd_foldRecords (dom : String) (d : String) (rs : List Record) :
    ∀ st : Stats,
      alistGet (rs.foldl (processRecord dom) st).failures_by_domain d 0 =
        alistGet st.failures_by_domain d 0 + failContribs d rs := by
  induction rs with
  | nil => intro st; simp [failContribs]
  | cons rec t ih =>
      intro st
      by_cases h : rec.header_from = d <;>
        simp [List.foldl_cons, ih, fbd_processRecord, failContribs, h] <;> ring

theorem fbd_processReport (st : Stats) (r : Report) (d : String) :
    alistGet (processReport st r).failures_by_domain d 0 =
      alistGet st.failures_by_domain d 0 + failContribs d r.records := by
  simp [processReport, reportHeader, fbd_foldRecords]

/-- C3: for every report list and every claimed domain `d`, the
accumulator's `failures_by_domain[d]` equals the sum, over all records of
any report with `header_from = d`, of the record's message count times the
number of non-`pass` checks (DKIM, SPF); a record failing both contributes
its count twice. -/
theorem failures_by_domain_eq_weighted_fail_sum (l : List Report) (d : String) :
    alistGet (_calculate_stats_for_reports l).failures_by_domain d 0 =
      (l.map (fun r => failContribs d r.records)).sum := by
  suffices h : ∀ st : Stats,
      alistGet (l.foldl processReport st).failures_by_domain d 0 =
        alistGet st.failures_by_domain d 0 +
          (l.map (fun r => failContribs d r.records)).sum by
    simpa [_calculate_stats_for_reports, emptyStats, alistGet, alistFind]
      using h emptyStats
  induction l with
  | nil => intro st; simp
  | cons r t ih =>
      intro st
      simp [List.foldl_cons, ih, fbd_processReport]
      ring

/-! ### C2: domain counts versus total messages -/

/-- Sum of `domainStats.count` over all materialized domains. -/
def domCountSum (ps : List (String × DomainStats)) : Int :=
  (ps.map (fun p => p.2.count)).sum

/-- Total message count of a record list. -/
def recordsSum (rs : List Record) : Int :=
  (rs.map Record.count).sum

/-- Message count of the records whose `header_from` matches `dom`. -/
def matchedSum (dom : String) (rs : List Record) : Int :=
  ((rs.filter (fun rec => decide (rec.header_from = dom))).map Record.count).sum

theorem domCountSum_update (ps : List (String × DomainStats)) (k : String)
    (f : DomainStats → DomainStats) :
    domCountSum (alistUpdate ps k defaultDomainStats f) =
      domCountSum ps + ((f (alistGet ps k defaultDomainStats)).count -
        (alistGet ps k defaultDomainStats).count) := by
  induction ps with
  | nil => simp [alistUpdate, domCountSum, alistGet, alistFind, defaultDomainStats]
  | cons hd t ih =>
      obtain ⟨k₀, v⟩ := hd
      by_cases h0 : k₀ = k
      · subst h0
        simp [alistUpdate, domCountSum, alistGet_cons_self]
        ring
      · simp [alistUpdate, domCountSum, alistGet_cons_ne _ _ _ _ _ h0, h0] at ih ⊢
        omega

theorem domCountSum_processRecord (dom : String) (st : Stats) (rec : Record) :
    domCountSum (processRecord dom st rec).domain_stats =
      domCountSum st.domain_stats + (if rec.header_from = dom then rec.count else 0) := by
  by_cases h : rec.header_from = dom <;>
    simp [processRecord, h, domCountSum_update]

theorem total_processRecord (dom : String) (st : Stats) (rec : Record) :
    (processRecord dom st rec).total_messages = st.total_messages + rec.count := by
  simp [processRecord]

theorem domCountSum_foldRecords (dom : String) (rs : List Record) :
    ∀ st : Stats,
      domCountSum ((rs.foldl (processRecord dom) st)).domain_stats =
        domCountSum st.domain_stats + matchedSum dom rs := by
  induction rs with
  | nil => intro st; simp [matchedSum]
  | cons rec t ih =>
      intro st
      by_cases h : rec.header_from = dom <;>
        simp [List.foldl_cons, ih, domCountSum_processRecord, matchedSum, h] <;>
        ring

theorem total_foldRecords (dom : String) (rs : List Record) :
    ∀ st : Stats,
      ((rs.foldl (processRecord dom) st)).total_messages =
        st.total_messages + recordsSum rs := by
  induction rs with
  | nil => intro st; simp [recordsSum]
  | cons rec t ih =>
      intro st
      simp [List.foldl_cons, ih, total_processRecord, recordsSum]
      ring

theorem domCountSum_processReport (st : Stats) (r : Report) :
    domCountSum (processReport st r).domain_stats =
      domCountSum st.domain_stats + matchedSum r.policy_published.domain r.records := by
  simp [processReport, reportHeader, domCountSum_foldRecords, domCountSum_update]

theorem total_processReport (st : Stats) (r : Report) :
    (processReport st r).total_messages =
      st.total_messages + recordsSum r.records := by
  simp [processReport, reportHeader, total_foldRecords]

theorem calc_domCountSum (l : List Report) :
    domCountSum (_calculate_stats_for_reports l).domain_stats =
      (l.map (fun r => matchedSum r.policy_published.domain r.records)).sum := by
  suffices h : ∀ st : Stats,
      domCountSum ((l.foldl processReport st)).domain_stats =
        domCountSum st.domain_stats +
          (l.map (fun r => matchedSum r.policy_published.domain r.records)).sum by
    simpa [_calculate_stats_for_reports, emptyStats, domCountSum] using h emptyStats
  induction l with
  | nil => intro st; simp
  | cons r t ih =>
      intro st
      simp [List.foldl_cons, ih, domCountSum_processReport]
      ring

theorem calc_total (l : List Report) :
    (_calculate_stats_for_reports l).total_messages =
      (l.map (fun r => recordsSum r.records)).sum := by
  suffices h : ∀ st : Stats,
      ((l.foldl processReport st)).total_messages =
        st.total_messages + (l.map (fun r => recordsSum r.records)).sum by
    simpa [_calculate_stats_for_reports, emptyStats] using h emptyStats
  induction l with
  | nil => intro st; simp
  | cons r t ih =>
      intro st
      simp [List.foldl_cons, ih, total_processReport]
      ring

/-- Sum of counts over records whose `header_from` does not match. -/
def unmatchedSum (dom : String) (rs : List Record) : Int :=
  ((rs.filter (fun rec => decide (¬ rec.header_from = dom))).map Record.count).sum

theorem recordsSum_split (dom : String) (rs : List Record) :
    recordsSum rs = matchedSum dom rs + unmatchedSum dom rs := by
  induction rs with
  | nil => simp [recordsSum, matchedSum, unmatchedSum]
  | cons rec t ih =>
      by_cases h : rec.header_from = dom <;>
        simp [recordsSum, matchedSum, unmatchedSum, h, List.filter] at ih ⊢ <;>
        omega

theorem sum_map_int_nonneg {α : Type} (f : α → Int) (L : List α)
    (h : ∀ x ∈ L, 0 ≤ f x) : 0 ≤ (L.map f).sum := by
  induction L with
  | nil => simp
  | cons a t ih =>
      have h1 := h a (by simp)
      have h2 := ih (fun x hx => h x (by simp [hx]))
      simp only [List.map_cons, List.sum_cons]
      omega

theorem sum_map_int_eq_zero_iff {α : Type} (f : α → Int) (L : List α)
    (h : ∀ x ∈ L, 0 ≤ f x) : (L.map f).sum = 0 ↔ ∀ x ∈ L, f x = 0 := by
  induction L with
  | nil => simp
  | cons a t ih =>
      have h1 := h a (by simp)
      have h2 := sum_map_int_nonneg f t (fun x hx => h x (by simp [hx]))
      have h3 := ih (fun x hx => h x (by simp [hx]))
      simp only [List.map_cons, List.sum_cons, List.mem_cons]
      constructor
      · intro h0
        have ha : f a = 0 := by omega
        have ht : (t.map f).sum = 0 := by omega
        intro x hx
        rcases hx with hx | hx
        · simpa [hx] using ha
        · exact (h3.mp ht) x hx
      · intro h0
        have ha : f a = 0 := h0 a (Or.inl rfl)
        have ht : (t.map f).sum = 0 := h3.mpr (fun x hx => h0 x (Or.inr hx))
        omega

theorem unmatchedSum_nonneg (dom : String) (rs : List Record)
    (h : ∀ rec ∈ rs, 0 ≤ rec.count) : 0 ≤ unmatchedSum dom rs := by
  refine sum_map_int_nonneg _ _ (fun rec hrec => ?_)
  exact h rec (List.mem_filter.mp hrec).1

theorem unmatchedSum_eq_zero_iff (dom : String) (rs : List Record)
    (h : ∀ rec ∈ rs, 0 ≤ rec.count) :
    unmatchedSum dom rs = 0 ↔
      ∀ rec ∈ rs, rec.header_from ≠ dom → rec.count = 0 := by
  unfold unmatchedSum
  rw [sum_map_int_eq_zero_iff _ _ (fun rec hrec => h rec (List.mem_filter.mp hrec).1)]
  constructor
  · intro h0 rec hrec hne
    exact h0 rec (List.mem_filter.mpr ⟨hrec, by simp [hne]⟩)
  · intro h0 rec hrec
    have hm := List.mem_filter.mp hrec
    exact h0 rec hm.1 (by simpa using hm.2)

theorem reportsSum_split (l : List Report) :
    (l.map (fun r => recordsSum r.records)).sum =
      (l.map (fun r => matchedSum r.policy_published.domain r.records)).sum +
        (l.map (fun r => unmatchedSum r.policy_published.domain r.records)).sum := by
  induction l with
  | nil => simp
  | cons r t ih =>
      simp only [List.map_cons, List.sum_cons, ih]
      rw [recordsSum_split r.policy_published.domain]
      ring

/-- C2 (amended): for every non-empty report list with non-negative record
counts, `sum(domainStats.count) ≤ totalMessages`, with equality exactly
when every record whose `header_from` differs from its report's domain has
a zero message count (the claim's stronger "only when every record
matches" fails on zero-count mismatching records, see the counterexample). -/
theorem domCountSum_le_total (l : List Report) (hne : l ≠ [])
    (h : ∀ r ∈ l, ∀ rec ∈ r.records, 0 ≤ rec.count) :
    domCountSum (_calculate_stats_for_reports l).domain_stats ≤
        (_calculate_stats_for_reports l).total_messages ∧
      (domCountSum (_calculate_stats_for_reports l).domain_stats =
          (_calculate_stats_for_reports l).total_messages ↔
        ∀ r ∈ l, ∀ rec ∈ r.records,
          rec.header_from ≠ r.policy_published.domain → rec.count = 0) := by
  rw [calc_domCountSum, calc_total]
  have hsplit := reportsSum_split l
  have hunn : 0 ≤ (l.map (fun r => unmatchedSum r.policy_published.domain r.records)).sum := by
    refine sum_map_int_nonneg _ _ (fun r hr => ?_)
    exact unmatchedSum_nonneg _ _ (fun rec hrec => h r hr rec hrec)
  constructor
  · omega
  · rw [hsplit]
    have hiff : (l.map (fun r => unmatchedSum r.policy_published.domain r.records)).sum = 0 ↔
        ∀ r ∈ l, ∀ rec ∈ r.records,
          rec.header_from ≠ r.policy_published.domain → rec.count = 0 := by
      rw [sum_map_int_eq_zero_iff _ _
        (fun r hr => unmatchedSum_nonneg _ _ (fun rec hrec => h r hr rec hrec))]
      constructor
      · intro h0 r hr rec hrec hne'
        exact (unmatchedSum_eq_zero_iff _ _ (fun rec hrec => h r hr rec hrec)).mp
          (h0 r hr) rec hrec hne'
      · intro h0 r hr
        exact (unmatchedSum_eq_zero_iff _ _ (fun rec hrec => h r hr rec hrec)).mpr
          (fun rec hrec => h0 r hr rec hrec)
    constructor
    · intro h0
      exact hiff.mp (by omega)
    · intro h0
      have := hiff.mpr h0
      omega

/-- Closed witness input for `domCountSum_le_total`: one report for
`a.com` with a matching 5-message record. -/
def c2WitnessReports : List Report :=
  [{ metadata := { org_name := "org", begin_date_dt := some 0, end_date_dt := some 10 }
     policy_published := { domain := "a.com", policy := "none", pct := 100, subpolicy := none }
     records := [{ source_ip := "1.2.3.4", count := 5, header_from := "a.com"
                   dkim_result := "pass", spf_result := "fail", disposition := "none" }] }]

theorem domCountSum_le_total_witness :
    (c2WitnessReports ≠ [] ∧
      ∀ r ∈ c2WitnessReports, ∀ rec ∈ r.records, 0 ≤ rec.count) ∧
    (domCountSum (_calculate_stats_for_reports c2WitnessReports).domain_stats ≤
        (_calculate_stats_for_reports c2WitnessReports).total_messages ∧
      (domCountSum (_calculate_stats_for_reports c2WitnessReports).domain_stats =
          (_calculate_stats_for_reports c2WitnessReports).total_messages ↔
        ∀ r ∈ c2WitnessReports, ∀ rec ∈ r.records,
          rec.header_from ≠ r.policy_published.domain → rec.count = 0)) :=
  ⟨⟨by decide, by decide⟩,
    domCountSum_le_total c2WitnessReports (by decide) (by decide)⟩

/-- Counterexample input for the claim's "equality only when every record
matches": a zero-count record claims `b.com` inside a report for `a.com`. -/
def c2CexReports : List Report :=
  [{ metadata := { org_name := "org", begin_date_dt := some 0, end_date_dt := some 10 }
     policy_published := { domain := "a.com", policy := "none", pct := 100, subpolicy := none }
     records := [{ source_ip := "1.2.3.4", count := 5, header_from := "a.com"
                   dkim_result := "pass", spf_result := "pass", disposition := "none" },
                 { source_ip := "5.6.7.8", count := 0, header_from := "b.com"
                   dkim_result := "fail", spf_result := "fail", disposition := "reject" }] }]

/-- C2 counterexample: on `c2CexReports` the domain-count sum equals the
total (both 5) even though the second record's `header_from` (`b.com`)
differs from its report's domain (`a.com`), refuting "equality only when
every record's `header_from` equals its own report's domain". -/
theorem domCountSum_eq_total_with_mismatch :
    domCountSum (_calculate_stats_for_reports c2CexReports).domain_stats =
        (_calculate_stats_for_reports c2CexReports).total_messages ∧
      (c2CexReports.map (fun r => r.records.map
        (fun rec => rec.header_from = r.policy_published.domain))) = [[True, False]] := by
  constructor
  · decide
  · simp [c2CexReports]

/-! ### C7 and C10: per-domain / per-source counter invariants -/

theorem mem_alistUpdate_pres {α : Type} (P : α → Prop) (l : List (String × α))
    (k : String) (d : α) (f : α → α)
    (hl : ∀ p ∈ l, P p.2) (hd : P (f d)) (hf : ∀ v, P v → P (f v)) :
    ∀ p ∈ alistUpdate l k d f, P p.2 := by
  induction l with
  | nil =>
      intro p hp
      simp [alistUpdate] at hp
      simp [hp, hd]
  | cons hd0 t ih =>
      obtain ⟨k₀, v⟩ := hd0
      intro p hp
      by_cases h0 : k₀ = k
      · subst h0
        simp [alistUpdate] at hp
        rcases hp with rfl | hp
        · exact hf v (hl (k₀, v) (by simp))
        · exact hl p (by simp [hp])
      · simp [alistUpdate, h0] at hp
        rcases hp with rfl | hp
        · exact hl (k₀, v) (by simp)
        · exact ih (fun q hq => hl q (by simp [hq])) p hp

/-- Alignment bound for a domain entry. -/
def DSalign (ds : DomainStats) : Prop :=
  ds.fully_aligned ≤ ds.count ∧ ds.fully_aligned ≤ ds.dkim_pass + ds.spf_pass

/-- Alignment bound for a source entry. -/
def IPalign (ip : IpStats) : Prop :=
  ip.fully_aligned ≤ ip.count ∧ ip.fully_aligned ≤ ip.dkim_pass + ip.spf_pass

/-- The alignment invariant over the whole accumulator. -/
def InvAlign (st : Stats) : Prop :=
  (∀ p ∈ st.domain_stats, DSalign p.2) ∧ (∀ p ∈ st.ips, IPalign p.2)

theorem invAlign_processRecord (dom : String) (st : Stats) (rec : Record)
    (hc : 0 ≤ rec.count) (hst : InvAlign st) :
    InvAlign (processRecord dom st rec) := by
  obtain ⟨hds, hip⟩ := hst
  constructor
  · intro p hp
    by_cases h : rec.header_from = dom
    · refine mem_alistUpdate_pres DSalign _ _ _ _ hds ?_ ?_ p
        (by simpa [processRecord, h] using hp)
      · cases hdk : isPass rec.dkim_result <;> cases hsp : isPass rec.spf_result <;>
          simp [DSalign, defaultDomainStats, hdk, hsp] <;> omega
      · intro v hv
        cases hdk : isPass rec.dkim_result <;> cases hsp : isPass rec.spf_result <;>
          simp [DSalign, hdk, hsp] at hv ⊢ <;> omega
    · exact hds p (by simpa [processRecord, h] using hp)
  · intro p hp
    refine mem_alistUpdate_pres IPalign _ _ _ _ hip ?_ ?_ p
      (by simpa [processRecord] using hp)
    · cases hdk : isPass rec.dkim_result <;> cases hsp : isPass rec.spf_result <;>
        simp [IPalign, defaultIpStats, hdk, hsp] <;> omega
    · intro v hv
      cases hdk : isPass rec.dkim_result <;> cases hsp : isPass rec.spf_result <;>
        simp [IPalign, hdk, hsp] at hv ⊢ <;> omega

theorem invAlign_reportHeader (st : Stats) (r : Report) (hst : InvAlign st) :
    InvAlign (reportHeader st r) := by
  obtain ⟨hds, hip⟩ := hst
  constructor
  · refine mem_alistUpdate_pres DSalign _ _ _ _ hds ?_ ?_
    · simp [DSalign, defaultDomainStats]
    · intro v hv
      simpa [DSalign] using hv
  · exact hip

theorem invAlign_processReport (st : Stats) (r : Report)
    (hc : ∀ rec ∈ r.records, 0 ≤ rec.count) (hst : InvAlign st) :
    InvAlign (processReport st r) := by
  suffices hfold : ∀ rs : List Record, (∀ rec ∈ rs, 0 ≤ rec.count) →
      ∀ st' : Stats, InvAlign st' →
        InvAlign (rs.foldl (processRecord r.policy_published.domain) st') by
    exact hfold r.records hc _ (invAlign_reportHeader st r hst)
  intro rs
  induction rs with
  | nil => intro _ st' h'; simpa using h'
  | cons rec t ih =>
      intro hrs st' h'
      simp only [List.foldl_cons]
      exact ih (fun x hx => hrs x (by simp [hx]))
        _ (invAlign_processRecord _ _ _ (hrs rec (by simp)) h')

/-- C7: for every report list with non-negative record message counts,
every `DomainStats` and every `SourceStats` produced by the accumulator
satisfies `fullyAligned ≤ count` and `fullyAligned ≤ dkimPass + spfPass`. -/
theorem fully_aligned_bounds (l : List Report)
    (h : ∀ r ∈ l, ∀ rec ∈ r.records, 0 ≤ rec.count) :
    (∀ p ∈ (_calculate_stats_for_reports l).domain_stats,
        p.2.fully_aligned ≤ p.2.count ∧
          p.2.fully_aligned ≤ p.2.dkim_pass + p.2.spf_pass) ∧
      (∀ p ∈ (_calculate_stats_for_reports l).ips,
        p.2.fully_aligned ≤ p.2.count ∧
          p.2.fully_aligned ≤ p.2.dkim_pass + p.2.spf_pass) := by
  suffices hinv : InvAlign (_calculate_stats_for_reports l) by
    exact ⟨fun p hp => hinv.1 p hp, fun p hp => hinv.2 p hp⟩
  unfold _calculate_stats_for_reports
  suffices hfold : ∀ st : Stats, InvAlign st →
      (∀ r ∈ l, ∀ rec ∈ r.records, 0 ≤ rec.count) →
      InvAlign (l.foldl processReport st) by
    refine hfold emptyStats ?_ h
    constructor <;> intro p hp <;> simp [emptyStats] at hp
  clear h
  induction l with
  | nil => intro st h' _; simpa using h'
  | cons r t ih =>
      intro st h' hcnt
      simp only [List.foldl_cons]
      exact ih _ (invAlign_processReport st r (hcnt r (by simp)) h')
        (fun x hx rec hrec => hcnt x (by simp [hx]) rec hrec)

theorem fully_aligned_bounds_witness :
    (∀ r ∈ c2WitnessReports, ∀ rec ∈ r.records, 0 ≤ rec.count) ∧
    ((∀ p ∈ (_calculate_stats_for_reports c2WitnessReports).domain_stats,
        p.2.fully_aligned ≤ p.2.count ∧
          p.2.fully_aligned ≤ p.2.dkim_pass + p.2.spf_pass) ∧
      (∀ p ∈ (_calculate_stats_for_reports c2WitnessReports).ips,
        p.2.fully_aligned ≤ p.2.count ∧
          p.2.fully_aligned ≤ p.2.dkim_pass + p.2.spf_pass)) :=
  ⟨by decide, fully_aligned_bounds c2WitnessReports (by decide)⟩

/-- Pass/fail partition for a domain entry. -/
def DSbal (ds : DomainStats) : Prop :=
  ds.dkim_pass + ds.dkim_fail = ds.count ∧ ds.spf_pass + ds.spf_fail = ds.count

/-- Pass/fail partition for a source entry. -/
def IPbal (ip : IpStats) : Prop :=
  ip.dkim_pass + ip.dkim_fail = ip.count ∧ ip.spf_pass + ip.spf_fail = ip.count

/-- The partition invariant over the whole accumulator. -/
def InvBal (st : Stats) : Prop :=
  (∀ p ∈ st.domain_stats, DSbal p.2) ∧ (∀ p ∈ st.ips, IPbal p.2) ∧
    st.dkim_overall_pass + st.dkim_overall_fail = st.total_messages ∧
    st.spf_overall_pass + st.spf_overall_fail = st.total_messages

theorem invBal_processRecord (dom : String) (st : Stats) (rec : Record)
    (hst : InvBal st) : InvBal (processRecord dom st rec) := by
  obtain ⟨hds, hip, hdk, hsp⟩ := hst
  refine ⟨?_, ?_, ?_, ?_⟩
  · intro p hp
    by_cases h : rec.header_from = dom
    · refine mem_alistUpdate_pres DSbal _ _ _ _ hds ?_ ?_ p
        (by simpa [processRecord, h] using hp)
      · cases hdk0 : isPass rec.dkim_result <;> cases hsp0 : isPass rec.spf_result <;>
          simp [DSbal, defaultDomainStats, hdk0, hsp0] <;> omega
      · intro v hv
        cases hdk0 : isPass rec.dkim_result <;> cases hsp0 : isPass rec.spf_result <;>
          simp [DSbal, hdk0, hsp0] at hv ⊢ <;> omega
    · exact hds p (by simpa [processRecord, h] using hp)
  · intro p hp
    refine mem_alistUpdate_pres IPbal _ _ _ _ hip ?_ ?_ p
      (by simpa [processRecord] using hp)
    · cases hdk0 : isPass rec.dkim_result <;> cases hsp0 : isPass rec.spf_result <;>
        simp [IPbal, defaultIpStats, hdk0, hsp0] <;> omega
    · intro v hv
      cases hdk0 : isPass rec.dkim_result <;> cases hsp0 : isPass rec.spf_result <;>
        simp [IPbal, hdk0, hsp0] at hv ⊢ <;> omega
  · cases hdk0 : isPass rec.dkim_result <;>
      simp [processRecord, hdk0] <;> omega
  · cases hsp0 : isPass rec.spf_result <;>
      simp [processRecord, hsp0] <;> omega

theorem invBal_reportHeader (st : Stats) (r : Report) (hst : InvBal st) :
    InvBal (reportHeader st r) := by
  obtain ⟨hds, hip, hdk, hsp⟩ := hst
  refine ⟨?_, hip, hdk, hsp⟩
  refine mem_alistUpdate_pres DSbal _ _ _ _ hds ?_ ?_
  · simp [DSbal, defaultDomainStats]
  · intro v hv
    simpa [DSbal] using hv

theorem invBal_processReport (st : Stats) (r : Report) (hst : InvBal st) :
    InvBal (processReport st r) := by
  suffices hfold : ∀ rs : List Record, ∀ st' : Stats, InvBal st' →
      InvBal (rs.foldl (processRecord r.policy_published.domain) st') by
    exact hfold r.records _ (invBal_reportHeader st r hst)
  intro rs
  induction rs with
  | nil => intro st' h'; simpa using h'
  | cons rec t ih =>
      intro st' h'
      simp only [List.foldl_cons]
      exact ih _ (invBal_processRecord _ _ _ h')

/-- C10 (implicit pass/fail partition): for every report list with
non-negative record message counts, every domain entry and every source
entry of the accumulator satisfies `dkimPass + dkimFail = count` and
`spfPass + spfFail = count`, and overall DKIM pass+fail and SPF pass+fail
both equal `totalMessages`. -/
theorem pass_fail_partition (l : List Report)
    (h : ∀ r ∈ l, ∀ rec ∈ r.records, 0 ≤ rec.count) :
    (∀ p ∈ (_calculate_stats_for_reports l).domain_stats,
        p.2.dkim_pass + p.2.dkim_fail = p.2.count ∧
          p.2.spf_pass + p.2.spf_fail = p.2.count) ∧
      (∀ p ∈ (_calculate_stats_for_reports l).ips,
        p.2.dkim_pass + p.2.dkim_fail = p.2.count ∧
          p.2.spf_pass + p.2.spf_fail = p.2.count) ∧
      (_calculate_stats_for_reports l).dkim_overall_pass +
          (_calculate_stats_for_reports l).dkim_overall_fail =
        (_calculate_stats_for_reports l).total_messages ∧
      (_calculate_stats_for_reports l).spf_overall_pass +
          (_calculate_stats_for_reports l).spf_overall_fail =
        (_calculate_stats_for_reports l).total_messages := by
  suffices hinv : InvBal (_calculate_stats_for_reports l) by
    exact ⟨hinv.1, hinv.2.1, hinv.2.2.1, hinv.2.2.2⟩
  unfold _calculate_stats_for_reports
  suffices hfold : ∀ st : Stats, InvBal st → InvBal (l.foldl processReport st) by
    refine hfold emptyStats ?_
    refine ⟨?_, ?_, by simp [emptyStats], by simp [emptyStats]⟩ <;>
      intro p hp <;> simp [emptyStats] at hp
  clear h
  induction l with
  | nil => intro st h'; simpa using h'
  | cons r t ih =>
      intro st h'
      simp only [List.foldl_cons]
      exact ih _ (invBal_processReport st r h')

theorem pass_fail_partition_witness :
    (∀ r ∈ c2WitnessReports, ∀ rec ∈ r.records, 0 ≤ rec.count) ∧
    ((∀ p ∈ (_calculate_stats_for_reports c2WitnessReports).domain_stats,
        p.2.dkim_pass + p.2.dkim_fail = p.2.count ∧
          p.2.spf_pass + p.2.spf_fail = p.2.count) ∧
      (∀ p ∈ (_calculate_stats_for_reports c2WitnessReports).ips,
        p.2.dkim_pass + p.2.dkim_fail = p.2.count ∧
          p.2.spf_pass + p.2.spf_fail = p.2.count) ∧
      (_calculate_stats_for_reports c2WitnessReports).dkim_overall_pass +
          (_calculate_stats_for_reports c2WitnessReports).dkim_overall_fail =
        (_calculate_stats_for_reports c2WitnessReports).total_messages ∧
      (_calculate_stats_for_reports c2WitnessReports).spf_overall_pass +
          (_calculate_stats_for_reports c2WitnessReports).spf_overall_fail =
        (_calculate_stats_for_reports c2WitnessReports).total_messages) :=
  ⟨by decide, pass_fail_partition c2WitnessReports (by decide)⟩

/-! ### C1: numeric time-window filtering -/

theorem maxEndDate_fold_ub (l : List Report) :
    ∀ (acc : Option Int) (m : Int), l.foldl maxStep acc = some m →
      (∀ r ∈ l, ∀ e, r.metadata.end_date_dt = some e → e ≤ m) ∧
      (∀ a, acc = some a → a ≤ m) := by
  induction l with
  | nil =>
      intro acc m h
      simp at h
      exact ⟨by simp, by simp [h]⟩
  | cons r t ih =>
      intro acc m h
      simp only [List.foldl_cons] at h
      obtain ⟨h1, h2⟩ := ih (maxStep acc r) m h
      have hstep : ∀ a, acc = some a → a ≤ m := by
        intro a ha
        subst ha
        cases hend : r.metadata.end_date_dt with
        | none => exact h2 a (by simp [maxStep, hend])
        | some e =>
            by_cases hgt : e > a
            · have he := h2 e (by simp [maxStep, hend, hgt])
              omega
            · exact h2 a (by simp [maxStep, hend, hgt])
      refine ⟨?_, hstep⟩
      intro r' hr' e he
      rcases List.mem_cons.mp hr' with rfl | hr'
      · cases hacc : acc with
        | none => exact h2 e (by simp [maxStep, he, hacc])
        | some a =>
            by_cases hgt : e > a
            · exact h2 e (by simp [maxStep, he, hacc, hgt])
            · have ha := h2 a (by simp [maxStep, he, hacc, hgt])
              omega
      · exact h1 r' hr' e he

theorem maxEndDate_ub (l : List Report) (m : Int) (h : maxEndDate l = some m) :
    ∀ r ∈ l, ∀ e, r.metadata.end_date_dt = some e → e ≤ m :=
  (maxEndDate_fold_ub l none m h).1

theorem maxEndDate_fold_isSome (l : List Report) :
    ∀ acc : Option Int, (acc.isSome ∨ ∃ r ∈ l, (r.metadata.end_date_dt).isSome) →
      (l.foldl maxStep acc).isSome := by
  induction l with
  | nil =>
      intro acc h
      rcases h with h | ⟨r, hr, _⟩
      · simpa using h
      · cases hr
  | cons r t ih =>
      intro acc h
      simp only [List.foldl_cons]
      refine ih (maxStep acc r) ?_
      cases hend : r.metadata.end_date_dt with
      | some e =>
          left
          cases acc <;> simp [maxStep, hend]
          split <;> simp
      | none =>
          rcases h with h | ⟨r', hr', he'⟩
          · exact Or.inl (by simpa [maxStep, hend] using h)
          · rcases List.mem_cons.mp hr' with rfl | hr'
            · rw [hend] at he'
              cases he'
            · exact Or.inr ⟨r', hr', he'⟩

/-- The claim's "at least one report carries an end date" guarantees the
anchor `maxEndDate` is defined (so `numeric_period_window` applies). -/
theorem maxEndDate_isSome (l : List Report)
    (h : ∃ r ∈ l, (r.metadata.end_date_dt).isSome) : (maxEndDate l).isSome :=
  maxEndDate_fold_isSome l none (Or.inr h)

theorem maxEndDate_fold_attained (l : List Report) :
    ∀ (acc : Option Int) (m : Int), l.foldl maxStep acc = some m →
      acc = some m ∨ ∃ r ∈ l, r.metadata.end_date_dt = some m := by
  induction l with
  | nil =>
      intro acc m h
      simp at h
      exact Or.inl (by simp [h])
  | cons r t ih =>
      intro acc m h
      simp only [List.foldl_cons] at h
      rcases ih (maxStep acc r) m h with hacc | ⟨r', hr', he'⟩
      · cases hend : r.metadata.end_date_dt with
        | none =>
            rw [show maxStep acc r = acc by simp [maxStep, hend]] at hacc
            exact Or.inl hacc
        | some e =>
            cases hacc' : acc with
            | none =>
                rw [hacc', show maxStep none r = some e by simp [maxStep, hend]] at hacc
                exact Or.inr ⟨r, by simp, by rw [hend, hacc]⟩
            | some a =>
                by_cases hgt : e > a
                · rw [hacc', show maxStep (some a) r = some e by
                    simp [maxStep, hend, hgt]] at hacc
                  exact Or.inr ⟨r, by simp, by rw [hend, hacc]⟩
                · rw [hacc', show maxStep (some a) r = some a by
                    simp [maxStep, hend, hgt]] at hacc
                  exact Or.inl hacc
      · exact Or.inr ⟨r', by simp [hr'], he'⟩

/-- The anchor is attained: `maxEndDate` answers an end date actually
carried by some report, hence (with `maxEndDate_ub`) the maximum. -/
theorem maxEndDate_attained (l : List Report) (m : Int)
    (h : maxEndDate l = some m) : ∃ r ∈ l, r.metadata.end_date_dt = some m := by
  rcases maxEndDate_fold_attained l none m h with hacc | hr
  · cases hacc
  · exact hr

theorem periodStep_none (ent : String → Option PeriodData) (tps : List String) :
    tps.foldl (periodStep ent) none = none := by
  induction tps with
  | nil => rfl
  | cons pk t ih => simpa [periodStep] using ih

theorem buildPeriods_fold_find (ent : String → Option PeriodData) (tps : List String) :
    ∀ acc ps, (∀ k v, alistFind acc k = some v → ent k = some v) →
      tps.foldl (periodStep ent) (some acc) = some ps →
      ∀ k v, alistFind ps k = some v → ent k = some v := by
  induction tps with
  | nil =>
      intro acc ps hacc h
      simp at h
      subst h
      exact hacc
  | cons pk t ih =>
      intro acc ps hacc h
      simp only [List.foldl_cons] at h
      cases hent : ent pk with
      | none =>
          rw [show periodStep ent (some acc) pk = none by simp [periodStep, hent],
            periodStep_none] at h
          cases h
      | some pd =>
          rw [show periodStep ent (some acc) pk = some (alistSet acc pk pd) by
            simp [periodStep, hent]] at h
          refine ih (alistSet acc pk pd) ps ?_ h
          intro k v hf
          rw [alistFind_set] at hf
          by_cases hk : pk = k
          · subst hk
            simp at hf
            subst hf
            exact hent
          · exact hacc k v (by simpa [hk] using hf)

theorem buildPeriods_find (ent : String → Option PeriodData) (tps : List String)
    (ps : List (String × PeriodData)) (h : buildPeriods ent tps = some ps)
    (k : String) (v : PeriodData) (hf : alistFind ps k = some v) :
    ent k = some v := by
  refine buildPeriods_fold_find ent tps [] ps ?_ h k v hf
  intro k v hfind
  simp [alistFind] at hfind

/-- C1: whenever at least one report carries an end date (so the anchor
`m` is the maximum end date across all reports), the statistics of each
numeric period `d` in the bundle are computed over exactly the reports
whose end date lies in the inclusive window `[m - d days, m]`; reports
without an end date are excluded.  (The source only tests the lower bound,
but every end date is at most the anchor.) -/
theorem numeric_period_window (l : List Report) (tps : List String) (now : Int)
    (pk : String) (d : Int) (b : StatsBundle) (pd : PeriodData) (m : Int)
    (hm : maxEndDate l = some m)
    (hpk : TIME_PERIODS pk = some (some d))
    (hb : analyze_reports l tps now = some b)
    (hfind : alistFind b.periods pk = some pd) :
    pd.stats = _calculate_stats_for_reports (l.filter (fun r =>
        match r.metadata.end_date_dt with
        | some e => decide (m - timedeltaDays d ≤ e ∧ e ≤ m)
        | none => false)) ∧
      pd.days = some d := by
  have hpkall : pk ≠ "all" := by
    intro h
    subst h
    simp [TIME_PERIODS] at hpk
  cases l with
  | nil => simp [maxEndDate] at hm
  | cons r0 t0 =>
      rw [show analyze_reports (r0 :: t0) tps now =
          (match buildPeriods (periodEntryFor (r0 :: t0) ((maxEndDate (r0 :: t0)).getD now)) tps with
           | none => none
           | some ps => some { periods := ps, default_period := defaultPeriodOf ps })
        from rfl] at hb
      cases hbp : buildPeriods (periodEntryFor (r0 :: t0) ((maxEndDate (r0 :: t0)).getD now)) tps with
      | none => rw [hbp] at hb; cases hb
      | some ps =>
          rw [hbp] at hb
          have hbps : b.periods = ps := by
            cases hb
            rfl
          have hent := buildPeriods_find _ _ _ hbp pk pd (hbps ▸ hfind)
          rw [hm] at hent
          simp only [periodEntryFor, hpk, Option.getD_some, if_neg hpkall] at hent
          have hfe : windowFilter (m - timedeltaDays d) (r0 :: t0) =
              (r0 :: t0).filter (fun r =>
                match r.metadata.end_date_dt with
                | some e => decide (m - timedeltaDays d ≤ e ∧ e ≤ m)
                | none => false) := by
            refine List.filter_congr ?_
            intro r hr
            cases hend : r.metadata.end_date_dt with
            | none => simp
            | some e =>
                have hub := maxEndDate_ub _ _ hm r hr e hend
                simp [decide_eq_decide, hub]
          cases hent
          exact ⟨by rw [← hfe], rfl⟩

/-- Concrete report list for the C1 witness: one report with end date
`1000000`. -/
def c1Reports : List Report :=
  [{ metadata := { org_name := "org", begin_date_dt := some 0, end_date_dt := some 1000000 }
     policy_published := { domain := "a.com", policy := "none", pct := 100, subpolicy := none }
     records := [{ source_ip := "1.2.3.4", count := 3, header_from := "a.com"
                   dkim_result := "pass", spf_result := "pass", disposition := "none" }] }]

/-- The bundle the witness computes from `c1Reports`. -/
def c1Bundle : StatsBundle :=
  (analyze_reports c1Reports ["30"] 0).getD { periods := [], default_period := none }

/-- The `"30"` period entry of `c1Bundle`. -/
def c1Period : PeriodData :=
  (alistFind c1Bundle.periods "30").getD
    { stats := emptyStats, is_meaningful := false, days := none }

theorem numeric_period_window_witness :
    maxEndDate c1Reports = some 1000000 ∧
    TIME_PERIODS "30" = some (some 30) ∧
    analyze_reports c1Reports ["30"] 0 = some c1Bundle ∧
    alistFind c1Bundle.periods "30" = some c1Period ∧
    (c1Period.stats = _calculate_stats_for_reports (c1Reports.filter (fun r =>
        match r.metadata.end_date_dt with
        | some e => decide (1000000 - timedeltaDays 30 ≤ e ∧ e ≤ 1000000)
        | none => false)) ∧
      c1Period.days = some 30) :=
  ⟨by decide, by decide, by decide, by decide,
    numeric_period_window c1Reports ["30"] 0 "30" 30 c1Bundle c1Period 1000000
      (by decide) (by decide) (by decide) (by decide)⟩

/-! ### C4 and C5: default-period assignment and selection order -/

theorem meaningfulAt_isSome (ps : List (String × PeriodData)) (k : String)
    (h : meaningfulAt ps k = true) : (alistFind ps k).isSome := by
  unfold meaningfulAt at h
  cases hf : alistFind ps k <;> simp [hf] at h ⊢

theorem defaultPeriodOf_mem (ps : List (String × PeriodData)) (k : String)
    (h : defaultPeriodOf ps = some k) : (alistFind ps k).isSome := by
  unfold defaultPeriodOf at h
  by_cases h30 : meaningfulAt ps "30" = true
  · rw [if_pos h30] at h
    cases h
    exact meaningfulAt_isSome ps _ h30
  · rw [if_neg h30] at h
    cases hfind : (sortPeriodKeys (ps.map Prod.fst)).find? (fun k => meaningfulAt ps k) with
    | some k₀ =>
        rw [hfind] at h
        cases h
        exact meaningfulAt_isSome ps _ (List.find?_some hfind)
    | none =>
        rw [hfind] at h
        by_cases hall : (alistFind ps "all").isSome
        · rw [if_pos hall] at h
          cases h
          exact hall
        · rw [if_neg hall] at h
          cases h

/-- C4 (amended): whenever `analyze_reports` succeeds, any default period
it assigns names a key present in the bundle's periods mapping; but for an
empty report list the early return assigns no default at all (contrary to
the claim's "a default key is still assigned by the same fallback order",
see the counterexample). -/
theorem default_period_present (l : List Report) (tps : List String) (now : Int)
    (b : StatsBundle) (hb : analyze_reports l tps now = some b) :
    (∀ k, b.default_period = some k → (alistFind b.periods k).isSome) ∧
      (l = [] → b.default_period = none) := by
  cases l with
  | nil =>
      cases hb
      refine ⟨fun k hk => ?_, fun _ => rfl⟩
      simp [emptyBundle] at hk
  | cons r0 t0 =>
      rw [show analyze_reports (r0 :: t0) tps now =
          (match buildPeriods (periodEntryFor (r0 :: t0) ((maxEndDate (r0 :: t0)).getD now)) tps with
           | none => none
           | some ps => some { periods := ps, default_period := defaultPeriodOf ps })
        from rfl] at hb
      cases hbp : buildPeriods (periodEntryFor (r0 :: t0) ((maxEndDate (r0 :: t0)).getD now)) tps with
      | none => rw [hbp] at hb; cases hb
      | some ps =>
          rw [hbp] at hb
          cases hb
          exact ⟨fun k hk => defaultPeriodOf_mem ps k hk, fun h => by cases h⟩

theorem default_period_present_witness :
    analyze_reports c1Reports ["30"] 0 = some c1Bundle ∧
    ((∀ k, c1Bundle.default_period = some k → (alistFind c1Bundle.periods k).isSome) ∧
      (c1Reports = [] → c1Bundle.default_period = none)) :=
  ⟨by decide, default_period_present c1Reports ["30"] 0 c1Bundle (by decide)⟩

/-- C4 counterexample: for the empty report list (with non-empty requested
keys `["30", "all"]`) the returned bundle carries no default period at
all, although the claim's fallback order would have assigned `"all"`. -/
theorem empty_reports_no_default :
    (analyze_reports [] ["30", "all"] 0).map StatsBundle.default_period = some none := by
  decide

/-! Sortedness of the period-key insertion sort, for the C5 minimality
statement. -/

theorem mem_insortPeriod (x a : String) (l : List String) :
    a ∈ insortPeriod x l ↔ a = x ∨ a ∈ l := by
  induction l with
  | nil => simp [insortPeriod]
  | cons y ys ih =>
      by_cases h : periodSortKey x ≤ periodSortKey y
      · simp [insortPeriod, h]
      · simp [insortPeriod, h, ih]
        tauto

theorem insortPeriod_pairwise (x : String) (l : List String)
    (h : l.Pairwise (fun a b => periodSortKey a ≤ periodSortKey b)) :
    (insortPeriod x l).Pairwise (fun a b => periodSortKey a ≤ periodSortKey b) := by
  induction l with
  | nil => simp [insortPeriod]
  | cons y ys ih =>
      rcases List.pairwise_cons.mp h with ⟨hy, hys⟩
      by_cases hc : periodSortKey x ≤ periodSortKey y
      · rw [show insortPeriod x (y :: ys) = x :: y :: ys by
          simp [insortPeriod, hc]]
        refine List.pairwise_cons.mpr ⟨?_, h⟩
        intro z hz
        rcases List.mem_cons.mp hz with rfl | hz
        · exact hc
        · exact le_trans hc (hy z hz)
      · rw [show insortPeriod x (y :: ys) = y :: insortPeriod x ys by
          simp [insortPeriod, hc]]
        refine List.pairwise_cons.mpr ⟨?_, ih hys⟩
        intro z hz
        rcases (mem_insortPeriod x z ys).mp hz with rfl | hz
        · omega
        · exact hy z hz

theorem sortPeriodKeys_pairwise (l : List String) :
    (sortPeriodKeys l).Pairwise (fun a b => periodSortKey a ≤ periodSortKey b) := by
  induction l with
  | nil => simp [sortPeriodKeys]
  | cons x xs ih => exact insortPeriod_pairwise x _ ih

theorem mem_sortPeriodKeys (a : String) (l : List String) :
    a ∈ sortPeriodKeys l ↔ a ∈ l := by
  induction l with
  | nil => simp [sortPeriodKeys]
  | cons x xs ih =>
      simp only [sortPeriodKeys, List.foldr_cons] at ih ⊢
      rw [mem_insortPeriod, ih, List.mem_cons]

theorem sorted_find?_min (L : List String) (p : String → Bool)
    (hs : L.Pairwise (fun a b => periodSortKey a ≤ periodSortKey b))
    (k₀ : String) (hf : L.find? p = some k₀) :
    ∀ y ∈ L, p y = true → periodSortKey k₀ ≤ periodSortKey y := by
  induction L with
  | nil => cases hf
  | cons a t ih =>
      rcases List.pairwise_cons.mp hs with ⟨ha, ht⟩
      by_cases hpa : p a
      · rw [List.find?_cons_of_pos _ hpa] at hf
        cases hf
        intro y hy _
        rcases List.mem_cons.mp hy with rfl | hy
        · exact le_refl _
        · exact ha y hy
      · rw [List.find?_cons_of_neg _ hpa] at hf
        intro y hy hpy
        rcases List.mem_cons.mp hy with rfl | hy
        · exact absurd hpy hpa
        · exact ih ht hf y hy hpy

theorem isSome_find_mem_keys (ps : List (String × PeriodData)) (k : String)
    (h : (alistFind ps k).isSome) : k ∈ ps.map Prod.fst := by
  induction ps with
  | nil => simp [alistFind] at h
  | cons hd t ih =>
      obtain ⟨k₀, v⟩ := hd
      by_cases h0 : k₀ = k
      · simp [h0]
      · simp [alistFind, h0] at h
        simpa using Or.inr (ih h)

/-- C5: default-period selection order.  (i) A meaningful `"30"` wins.
(ii) Otherwise, if any period is meaningful, the chosen default is a
meaningful key of minimal sort key (numeric value, with `"all"` ordered
last at 9999).  (iii) If nothing is meaningful, a requested `"all"` is
chosen.  The validity hypothesis restricts to the key set the source can
actually build (any other key would have raised `KeyError` earlier). -/
theorem default_period_selection (ps : List (String × PeriodData))
    (hvalid : ∀ p ∈ ps, (TIME_PERIODS p.1).isSome) :
    (meaningfulAt ps "30" = true → defaultPeriodOf ps = some "30") ∧
      (meaningfulAt ps "30" = false →
        ∀ k, meaningfulAt ps k = true →
          ∃ k₀, defaultPeriodOf ps = some k₀ ∧ meaningfulAt ps k₀ = true ∧
            ∀ k', meaningfulAt ps k' = true →
              periodSortKey k₀ ≤ periodSortKey k') ∧
      ((∀ k, meaningfulAt ps k = false) → (alistFind ps "all").isSome →
        defaultPeriodOf ps = some "all") := by
  refine ⟨?_, ?_, ?_⟩
  · intro h30
    simp [defaultPeriodOf, h30]
  · intro h30 k hk
    have hkmem : k ∈ sortPeriodKeys (ps.map Prod.fst) :=
      (mem_sortPeriodKeys _ _).mpr
        (isSome_find_mem_keys ps k (meaningfulAt_isSome ps k hk))
    have hex : ∃ x ∈ sortPeriodKeys (ps.map Prod.fst), meaningfulAt ps x = true :=
      ⟨k, hkmem, hk⟩
    cases hfind : (sortPeriodKeys (ps.map Prod.fst)).find? (fun k => meaningfulAt ps k) with
    | none =>
        rw [List.find?_eq_none] at hfind
        exact absurd hk (by simpa using hfind k hkmem)
    | some k₀ =>
        refine ⟨k₀, ?_, List.find?_some hfind, ?_⟩
        · simp [defaultPeriodOf, h30, hfind]
        · intro k' hk'
          refine sorted_find?_min _ _ (sortPeriodKeys_pairwise _) k₀ hfind k' ?_ hk'
          exact (mem_sortPeriodKeys _ _).mpr
            (isSome_find_mem_keys ps k' (meaningfulAt_isSome ps k' hk'))
  · intro hnone hall
    have hfind : (sortPeriodKeys (ps.map Prod.fst)).find? (fun k => meaningfulAt ps k) = none := by
      rw [List.find?_eq_none]
      intro x _
      simp [hnone x]
    simp [defaultPeriodOf, hnone "30", hfind, hall]

/-- The spec's worked example: periods 30 (not meaningful), 90
(meaningful), all (meaningful). -/
def c5Example : List (String × PeriodData) :=
  [("30", { stats := emptyStats, is_meaningful := false, days := some 30 }),
   ("90", { stats := emptyStats, is_meaningful := true, days := some 90 }),
   ("all", { stats := emptyStats, is_meaningful := true, days := none })]

theorem default_period_selection_witness :
    (∀ p ∈ c5Example, (TIME_PERIODS p.1).isSome) ∧
    ((meaningfulAt c5Example "30" = true → defaultPeriodOf c5Example = some "30") ∧
      (meaningfulAt c5Example "30" = false →
        ∀ k, meaningfulAt c5Example k = true →
          ∃ k₀, defaultPeriodOf c5Example = some k₀ ∧
            meaningfulAt c5Example k₀ = true ∧
            ∀ k', meaningfulAt c5Example k' = true →
              periodSortKey k₀ ≤ periodSortKey k') ∧
      ((∀ k, meaningfulAt c5Example k = false) → (alistFind c5Example "all").isSome →
        defaultPeriodOf c5Example = some "all")) ∧
    defaultPeriodOf c5Example = some "90" :=
  ⟨by decide, default_period_selection c5Example (by decide), by decide⟩

/-! ### C8: unknown-period fallback and the missing-`"all"` KeyError -/

/-- C8 (amended): a requested period key absent from the bundle falls back
to `"all"`, and the call returns normally when `"all"` is present; but
when `"all"` is itself absent the subscript `stats_bundle['periods']
[period_key]` raises `KeyError` (modelled as `none`), contrary to the
claim's "no exception propagates ... even when `'all'` was not among the
computed periods". -/
theorem unknown_period_fallback (b : StatsBundle) (k : String)
    (hmiss : alistFind b.periods k = none) :
    resolvePeriodKey b (some k) = "all" ∧
      ((alistFind b.periods "all").isSome →
        (generate_policy_recommendations b (some k)).isSome) ∧
      (alistFind b.periods "all" = none →
        generate_policy_recommendations b (some k) = none) := by
  have hres : resolvePeriodKey b (some k) = "all" := by
    simp [resolvePeriodKey, hmiss]
  refine ⟨hres, ?_, ?_⟩
  · intro hall
    rw [Option.isSome_iff_exists] at hall
    obtain ⟨pd, hpd⟩ := hall
    simp [generate_policy_recommendations, hres, hpd]
  · intro hall
    simp [generate_policy_recommendations, hres, hall]

/-- A bundle whose only period is `"30"` (as produced by
`analyze_reports` with `time_periods=['30']`). -/
def c8Bundle : StatsBundle :=
  { periods := [("30", { stats := emptyStats, is_meaningful := false, days := some 30 })]
    default_period := none }

theorem unknown_period_fallback_witness :
    alistFind c8Bundle.periods "90" = none ∧
    (resolvePeriodKey c8Bundle (some "90") = "all" ∧
      ((alistFind c8Bundle.periods "all").isSome →
        (generate_policy_recommendations c8Bundle (some "90")).isSome) ∧
      (alistFind c8Bundle.periods "all" = none →
        generate_policy_recommendations c8Bundle (some "90") = none)) :=
  ⟨by decide, unknown_period_fallback c8Bundle "90" (by decide)⟩

/-- C8 counterexample: requesting the unknown key `"90"` on a bundle that
has no `"all"` period makes `generate_policy_recommendations` fail with a
`KeyError` (modelled `none`) instead of returning normally. -/
theorem unknown_period_without_all_raises :
    generate_policy_recommendations c8Bundle (some "90") = none := by
  decide

/-! ### C9: the per-entry stats payload -/

/-- C9 (amended): in the recommendation list of the chosen period, the
entry of every domain with nonzero direct-message count carries the
snapshot (message count, DKIM/SPF/alignment rates as percentages,
policy/pct/subpolicy, source count, disposition histogram); but the entry
of a zero-count domain carries the raw `DomainStats` object instead of a
snapshot, contrary to the claim. -/
theorem rec_stats_shape (b : StatsBundle) (pk : Option String) (pdata : PeriodData)
    (hfind : alistFind b.periods (resolvePeriodKey b pk) = some pdata)
    (dom : String) (ds : DomainStats)
    (hmem : (dom, ds) ∈ pdata.stats.domain_stats) :
    ∃ recs, generate_policy_recommendations b pk = some recs ∧
      ∃ r ∈ recs, r.domain = dom ∧
        (ds.count ≠ 0 →
          r.stats = RecStats.snapshot ds.count (dkimRate ds * 100)
            (spfRate ds * 100) (alignmentRate ds * 100) ds.current_policy
            ds.current_pct ds.current_sp (ds.sending_sources.length : Int)
            ds.policy_applied) ∧
        (ds.count = 0 → r.stats = RecStats.raw ds) := by
  refine ⟨pdata.stats.domain_stats.map (fun p =>
      recForDomain pdata.days pdata.stats.date_range_begin
        pdata.stats.date_range_end p.1 p.2), ?_, ?_⟩
  · simp [generate_policy_recommendations, hfind]
  refine ⟨recForDomain pdata.days pdata.stats.date_range_begin
      pdata.stats.date_range_end dom ds,
    List.mem_map.mpr ⟨(dom, ds), hmem, rfl⟩, ?_, ?_, ?_⟩
  · unfold recForDomain
    split <;> rfl
  · intro hc
    simp [recForDomain, hc]
  · intro hc
    simp [recForDomain, hc]

/-- A period whose only domain entry has the all-zero default counters
(count 0). -/
def c9Period : PeriodData :=
  { stats := { emptyStats with domain_stats := [("d.com", defaultDomainStats)] }
    is_meaningful := false
    days := none }

/-- A bundle carrying `c9Period` under `"all"`. -/
def c9Bundle : StatsBundle :=
  { periods := [("all", c9Period)], default_period := some "all" }

theorem rec_stats_shape_witness :
    alistFind c9Bundle.periods (resolvePeriodKey c9Bundle none) = some c9Period ∧
    ("d.com", defaultDomainStats) ∈ c9Period.stats.domain_stats ∧
    (∃ recs, generate_policy_recommendations c9Bundle none = some recs ∧
      ∃ r ∈ recs, r.domain = "d.com" ∧
        (defaultDomainStats.count ≠ 0 →
          r.stats = RecStats.snapshot defaultDomainStats.count
            (dkimRate defaultDomainStats * 100) (spfRate defaultDomainStats * 100)
            (alignmentRate defaultDomainStats * 100)
            defaultDomainStats.current_policy defaultDomainStats.current_pct
            defaultDomainStats.current_sp
            (defaultDomainStats.sending_sources.length : Int)
            defaultDomainStats.policy_applied) ∧
        (defaultDomainStats.count = 0 → r.stats = RecStats.raw defaultDomainStats)) :=
  ⟨by decide, by decide,
    rec_stats_shape c9Bundle none c9Period (by decide) "d.com" defaultDomainStats
      (by decide)⟩

/-- C9 counterexample: on `c9Bundle` the single recommendation entry (for
the zero-count domain `d.com`) does not carry a stats snapshot — its
`'stats'` payload is the raw `DomainStats` dict, with no percentage rates
or source count. -/
theorem zero_count_entry_not_snapshot :
    (generate_policy_recommendations c9Bundle none).map
      (fun recs => recs.map (fun r => r.stats.isSnapshot)) = some [false] := by
  decide

/-! ### C6: recommendation rules for the chosen period -/

theorem startsWith_split (p q full x : String) (h : full = p ++ q) :
    ∃ rest, full ++ x = p ++ rest :=
  ⟨q ++ x, by rw [h, String.append_assoc]⟩

theorem lit_split (p q full : String) (h : full = p ++ q) :
    ∃ rest, full = p ++ rest :=
  ⟨q, h⟩

theorem ne_of_lit_head (p x t : String) (h : p.data.isPrefixOf t.data = false) :
    p ++ x ≠ t := by
  intro he
  have hd : t.data = p.data ++ x.data := by
    rw [← he, String.data_append]
  have htrue : p.data.isPrefixOf t.data = true := by
    rw [ List.isPrefixOf_iff_prefix, hd]
    exact List.prefix_append _ _
  rw [h] at htrue
  cases htrue

theorem mem_authLines_cases (dk sp : ℚ) (csp cpol : String) (line : String)
    (h : line ∈ authLines dk sp csp cpol) :
    line = "DKIM ISSUE: Improve DKIM signing (currently " ++ (fmtRate dk ++ " pass rate).") ∨
    line = "CRITICAL: DKIM failures are significant and require immediate attention." ∨
    line = "SPF ISSUE: Improve SPF alignment (currently " ++ (fmtRate sp ++ " pass rate).") ∨
    line = "CRITICAL: SPF failures are significant and require immediate attention." ∨
    line = "SUBDOMAIN POLICY: Consider setting 'sp=reject' to protect against subdomain spoofing." := by
  unfold authLines at h
  split_ifs at h <;>
    simp only [List.mem_append, List.mem_cons, List.mem_singleton,
      List.not_mem_nil, or_false, false_or] at h <;>
    tauto

theorem legitLossWarn_not_mem_authLines (dk sp : ℚ) (csp cpol : String) :
    legitLossWarn ∉ authLines dk sp csp cpol := by
  intro h
  rcases mem_authLines_cases dk sp csp cpol legitLossWarn h with
    h1 | h1 | h1 | h1 | h1
  · exact ne_of_lit_head "DKIM ISSUE: Improve DKIM signing (currently "
      _ _ (by decide) h1.symm
  · exact absurd h1 (by decide)
  · exact ne_of_lit_head "SPF ISSUE: Improve SPF alignment (currently "
      _ _ (by decide) h1.symm
  · exact absurd h1 (by decide)
  · exact absurd h1 (by decide)

theorem legitLossWarn_not_mem_diversityLines (n : Int) (cpol : String) (cpct : Int) :
    legitLossWarn ∉ diversityLines n cpol cpct := by
  intro h
  unfold diversityLines at h
  split_ifs at h <;>
    simp only [List.mem_singleton, List.not_mem_nil] at h
  exact ne_of_lit_head "DIVERSITY WARNING: You have " _ _ (by decide) h.symm

theorem recForDomain_recs (days dr_b dr_e : Option Int) (dom : String)
    (ds : DomainStats) (hc : ¬ ds.count = 0) :
    (recForDomain days dr_b dr_e dom ds).recommendations =
      ["INFO: Recommendations based on " ++ (periodDescMain days dr_b dr_e ++ ".")]
        ++ policyLines (alignmentRate ds) ds.current_policy ds.current_pct
        ++ authLines (dkimRate ds) (spfRate ds) ds.current_sp ds.current_policy
        ++ diversityLines (ds.sending_sources.length : Int) ds.current_policy
            ds.current_pct := by
  simp [recForDomain, hc]

/-- C6: for every entry of the chosen period's recommendation list whose
domain has positive direct-message count: if the current policy is `none`
and the alignment rate is at least 0.95 the entry contains a line starting
with `POLICY UPGRADE:`; and if the current policy is `reject` with
`pct = 100` the entry contains a line starting with `OPTIMAL:`, together
with the legitimate-mail-loss warning line exactly when the alignment
rate is below 0.98. -/
theorem recommendation_rules (b : StatsBundle) (pk : Option String)
    (pdata : PeriodData)
    (hfind : alistFind b.periods (resolvePeriodKey b pk) = some pdata)
    (dom : String) (ds : DomainStats)
    (hmem : (dom, ds) ∈ pdata.stats.domain_stats) (hc : 0 < ds.count) :
    ∃ recs, generate_policy_recommendations b pk = some recs ∧
      ∃ r ∈ recs, r.domain = dom ∧
        (ds.current_policy = "none" → alignmentRate ds ≥ 0.95 →
          ∃ line ∈ r.recommendations, ∃ rest, line = "POLICY UPGRADE:" ++ rest) ∧
        (ds.current_policy = "reject" → ds.current_pct = 100 →
          (∃ line ∈ r.recommendations, ∃ rest, line = "OPTIMAL:" ++ rest) ∧
          (legitLossWarn ∈ r.recommendations ↔ alignmentRate ds < 0.98)) := by
  have hcne : ¬ ds.count = 0 := by omega
  refine ⟨pdata.stats.domain_stats.map (fun p =>
      recForDomain pdata.days pdata.stats.date_range_begin
        pdata.stats.date_range_end p.1 p.2), ?_, ?_⟩
  · simp [generate_policy_recommendations, hfind]
  refine ⟨recForDomain pdata.days pdata.stats.date_range_begin
      pdata.stats.date_range_end dom ds,
    List.mem_map.mpr ⟨(dom, ds), hmem, rfl⟩, by simp [recForDomain, hcne], ?_, ?_⟩
  · intro hpol halign
    have hpl : policyLines (alignmentRate ds) ds.current_policy ds.current_pct =
        ["POLICY UPGRADE: Consider moving to 'p=quarantine' with pct=5 as alignment rate is excellent ("
          ++ (fmtRate (alignmentRate ds) ++ ")." )] := by
      rw [hpol]
      simp [policyLines, halign]
    refine ⟨"POLICY UPGRADE: Consider moving to 'p=quarantine' with pct=5 as alignment rate is excellent ("
        ++ (fmtRate (alignmentRate ds) ++ ")." ), ?_, ?_⟩
    · rw [recForDomain_recs _ _ _ _ _ hcne, hpl]
      simp
    · exact startsWith_split "POLICY UPGRADE:"
        " Consider moving to 'p=quarantine' with pct=5 as alignment rate is excellent ("
        "POLICY UPGRADE: Consider moving to 'p=quarantine' with pct=5 as alignment rate is excellent ("
        (fmtRate (alignmentRate ds) ++ ")." ) (by decide)
  · intro hpol hpct
    constructor
    · refine ⟨"OPTIMAL: DMARC policy is at maximum enforcement (p=reject, pct=100).", ?_, ?_⟩
      · rw [recForDomain_recs _ _ _ _ _ hcne]
        have hpl : policyLines (alignmentRate ds) ds.current_policy ds.current_pct =
            ["OPTIMAL: DMARC policy is at maximum enforcement (p=reject, pct=100)."]
              ++ (if alignmentRate ds < 0.98 then [legitLossWarn] else []) := by
          rw [hpol, hpct]
          simp [policyLines]
        rw [hpl]
        simp
      · exact lit_split "OPTIMAL:"
          " DMARC policy is at maximum enforcement (p=reject, pct=100)."
          "OPTIMAL: DMARC policy is at maximum enforcement (p=reject, pct=100)."
          (by decide)
    · constructor
      · intro hin
        by_contra hge
        have hpl : policyLines (alignmentRate ds) ds.current_policy ds.current_pct =
            ["OPTIMAL: DMARC policy is at maximum enforcement (p=reject, pct=100)."] := by
          rw [hpol, hpct]
          simp [policyLines, hge]
        rw [recForDomain_recs _ _ _ _ _ hcne, hpl] at hin
        rcases List.mem_append.mp hin with hin | hin
        · rcases List.mem_append.mp hin with hin | hin
          · rcases List.mem_append.mp hin with hin | hin
            · exact ne_of_lit_head "INFO: Recommendations based on " _ _
                (by decide) (List.mem_singleton.mp hin).symm
            · exact absurd (List.mem_singleton.mp hin) (by decide)
          · exact legitLossWarn_not_mem_authLines _ _ _ _ hin
        · exact legitLossWarn_not_mem_diversityLines _ _ _ hin
      · intro hlt
        have hpl : policyLines (alignmentRate ds) ds.current_policy ds.current_pct =
            ["OPTIMAL: DMARC policy is at maximum enforcement (p=reject, pct=100).",
              legitLossWarn] := by
          rw [hpol, hpct]
          simp [policyLines, hlt]
        rw [recForDomain_recs _ _ _ _ _ hcne, hpl]
        simp

/-- Concrete domain entry for the C6 witness: one fully aligned message
under policy `none`. -/
def c6DS : DomainStats :=
  { defaultDomainStats with
    count := 1, dkim_pass := 1, fully_aligned := 1
    current_policy := "none", sending_sources := ["1.2.3.4"] }

/-- A period carrying `c6DS` for domain `d.com`. -/
def c6Period : PeriodData :=
  { stats := { emptyStats with domain_stats := [("d.com", c6DS)] }
    is_meaningful := true
    days := none }

/-- A bundle carrying `c6Period` under `"all"`. -/
def c6Bundle : StatsBundle :=
  { periods := [("all", c6Period)], default_period := some "all" }

theorem recommendation_rules_witness :
    alistFind c6Bundle.periods (resolvePeriodKey c6Bundle none) = some c6Period ∧
    ("d.com", c6DS) ∈ c6Period.stats.domain_stats ∧ 0 < c6DS.count ∧
    (∃ recs, generate_policy_recommendations c6Bundle none = some recs ∧
      ∃ r ∈ recs, r.domain = "d.com" ∧
        (c6DS.current_policy = "none" → alignmentRate c6DS ≥ 0.95 →
          ∃ line ∈ r.recommendations, ∃ rest, line = "POLICY UPGRADE:" ++ rest) ∧
        (c6DS.current_policy = "reject" → c6DS.current_pct = 100 →
          (∃ line ∈ r.recommendations, ∃ rest, line = "OPTIMAL:" ++ rest) ∧
          (legitLossWarn ∈ r.recommendations ↔ alignmentRate c6DS < 0.98))) :=
  ⟨by decide, by decide, by decide,
    recommendation_rules c6Bundle none c6Period (by decide) "d.com" c6DS
      (by decide) (by decide)⟩

end DMARCer
